import Mathlib

/-!
Verification development for the snepsek chat-bot framework core.

Each section shallowly embeds one component of the TypeScript source as pure
Lean definitions: asynchronous methods become explicit state-passing functions,
awaited hook invocations become events appended to a trace, timers become
boolean fields of the state record, and machine interaction (message edits,
reaction changes, log output) becomes an explicit effect list. JavaScript
numbers appearing in the embedded fragments are natural numbers, which is
faithful because the modelled code only increments counters and compares them
for equality.
-/

namespace Snepsek

/-! ## Client module lifecycle (Client.ts) -/

/-- Lifecycle hook events, one per awaited hook invocation. Modules are named
by their registration index. Because every hook invocation is awaited before
the next one starts, hook executions never overlap and a single atomic event
per hook is a faithful rendering of the trace. -/
inductive LcEvent where
  | willInit (m : Nat)
  | didInit (m : Nat)
deriving DecidableEq

/-- Connection status values of the client. -/
inductive ConnStatus where
  | disconnected
  | connecting
  | ready
deriving DecidableEq

/-- Observable client state: stored modules in insertion order, the connection
status and the trace of lifecycle hook invocations so far. -/
structure ClientState where
  modules : List Nat
  status : ConnStatus
  trace : List LcEvent
deriving DecidableEq

/-- Client state before any module is added. -/
def initClient : ClientState :=
  { modules := [], status := ConnStatus.disconnected, trace := [] }

/-- Embeds Client.addModule for a single module: the constructed module is
stored in insertion order, and only when the client is already ready are
moduleWillInit and moduleDidInit awaited immediately for that module. -/
def addModule (m : Nat) (s : ClientState) : ClientState :=
  let s2 : ClientState := { s with modules := s.modules ++ [m] }
  if s2.status = ConnStatus.ready then
    { s2 with trace := s2.trace ++ [LcEvent.willInit m, LcEvent.didInit m] }
  else s2

/-- Embeds the varargs loop of Client.addModule over a list of modules. -/
def addModules (ms : List Nat) (s : ClientState) : ClientState :=
  ms.foldl (fun st m => addModule m st) s

/-- Embeds Client.preInitializeModules: moduleWillInit of every stored module
is awaited in insertion order, each strictly before the next. -/
def preInitializeModules (s : ClientState) : ClientState :=
  { s with trace := s.trace ++ s.modules.map LcEvent.willInit }

/-- Embeds Client.postInitializeModules: moduleDidInit of every stored module
is awaited in insertion order, each strictly before the next. -/
def postInitializeModules (s : ClientState) : ClientState :=
  { s with trace := s.trace ++ s.modules.map LcEvent.didInit }

/-- Embeds Client.connect for a client holding a token: preInitializeModules
is awaited first, then the transport connects, and on the ready event the
status becomes ready and postInitializeModules is awaited. -/
def connect (s : ClientState) : ClientState :=
  let s1 := preInitializeModules s
  let s2 : ClientState := { s1 with status := ConnStatus.connecting }
  let s3 : ClientState := { s2 with status := ConnStatus.ready }
  postInitializeModules s3

/-! ## ModuleTask (modules/ModuleTask.ts) -/

/-- Resolved task options after the defaults are merged in the constructor. -/
structure TaskOptions where
  runEvery : Nat
  runFor : Nat
  offset : Nat
deriving DecidableEq

/-- JavaScript receiver of a ModuleTask.trigger invocation. The source invokes
the method as trigger.apply(this.module) from start and from the interval
callback, so the receiver can be the owning module rather than the task. -/
inductive Receiver where
  | task
  | moduleObj
deriving DecidableEq

/-- Runtime errors that escape the embedded fragments. -/
inductive JsErr where
  | typeError
deriving DecidableEq

/-- Observable state of one ModuleTask together with its owning module:
runCount is the counter field of the task object, moduleRunCountNaN records
that the runCount property of the module object has been created and holds
NaN, timerField records whether the timer field of the task holds an interval
handle, intervalLive records whether the underlying interval is still
scheduled, handlerCalls counts invocations of the bound handler function, and
consoleLogs and moduleLogs count error reports through the global console and
through the module logger respectively. -/
structure TaskState where
  runCount : Nat
  moduleRunCountNaN : Bool
  timerField : Bool
  intervalLive : Bool
  handlerCalls : Nat
  consoleLogs : Nat
  moduleLogs : Nat
deriving DecidableEq

/-- State of a freshly constructed task. -/
def initTask : TaskState :=
  { runCount := 0, moduleRunCountNaN := false, timerField := false,
    intervalLive := false, handlerCalls := 0, consoleLogs := 0,
    moduleLogs := 0 }

/-- Embeds ModuleTask.trigger with an explicit JavaScript receiver; the
function hThrows states, per handler invocation, whether the handler throws.
With the module as receiver, the handler property of the module is undefined,
so handler.apply throws a TypeError inside the try block, which is caught and
reported through console.error; the increment of runCount on the module
stores NaN; reading runFor off the undefined options property of the module
then throws a TypeError outside the try block, so the call rejects. With the
task as receiver the body matches the source directly: a throwing handler is
caught and reported through console.error (the module logger is never used in
this revision), runCount increments once per trigger, and when runCount
equals runFor while the timer field holds a handle, the interval is cleared
but the timer field itself is kept. -/
def triggerV1 (recv : Receiver) (opts : TaskOptions) (hThrows : Nat → Bool)
    (s : TaskState) : TaskState × Option JsErr :=
  match recv with
  | Receiver.moduleObj =>
      let s1 : TaskState := { s with consoleLogs := s.consoleLogs + 1 }
      let s2 : TaskState := { s1 with moduleRunCountNaN := true }
      (s2, some JsErr.typeError)
  | Receiver.task =>
      let s1 : TaskState :=
        if hThrows s.handlerCalls then
          { s with handlerCalls := s.handlerCalls + 1,
                   consoleLogs := s.consoleLogs + 1 }
        else
          { s with handlerCalls := s.handlerCalls + 1 }
      let s2 : TaskState := { s1 with runCount := s1.runCount + 1 }
      if s2.runCount = opts.runFor ∧ s2.timerField = true then
        ({ s2 with intervalLive := false }, none)
      else (s2, none)

/-- Embeds ModuleTask.start: after the offset wait, a repeating interval is
armed when runEvery is nonzero (its callback again applies trigger to the
module), and the first trigger is then invoked as trigger.apply(this.module)
and awaited, so a rejection of that call propagates to the caller of start
while the field mutations made before it persist. -/
def startV1 (opts : TaskOptions) (hThrows : Nat → Bool) (s : TaskState) :
    TaskState × Option JsErr :=
  let s1 : TaskState :=
    if opts.runEvery ≠ 0 then
      { s with timerField := true, intervalLive := true }
    else s
  triggerV1 Receiver.moduleObj opts hThrows s1

/-- Embeds one tick of the interval armed by start; the callback applies
trigger to the module, and a rejection of the resulting promise is unhandled
and does not clear the interval. -/
def tickV1 (opts : TaskOptions) (hThrows : Nat → Bool) (s : TaskState) :
    TaskState :=
  (triggerV1 Receiver.moduleObj opts hThrows s).1

/-- Iterates tickV1, embedding n successive interval ticks. -/
def ticksV1 (opts : TaskOptions) (hThrows : Nat → Bool) :
    Nat → TaskState → TaskState
  | 0, s => s
  | n + 1, s => ticksV1 opts hThrows n (tickV1 opts hThrows s)

/-- Embeds ModuleTask.stop: it returns true exactly when runEvery is nonzero
and the timer field holds a handle, in which case clearInterval cancels the
underlying interval; the timer field itself is never cleared by the source. -/
def stopV1 (opts : TaskOptions) (s : TaskState) : TaskState × Bool :=
  if opts.runEvery ≠ 0 ∧ s.timerField = true then
    ({ s with intervalLive := false }, true)
  else (s, false)

/-- Handler that never throws. -/
def noThrow : Nat → Bool := fun _ => false

/-- Handler that throws on every invocation. -/
def alwaysThrow : Nat → Bool := fun _ => true

/-- Task options of the configuration named in the spec: offset 1000,
runEvery 1000, runFor 3. -/
def c6Opts : TaskOptions := { runEvery := 1000, runFor := 3, offset := 1000 }

/-- Task options for a plain repeating task with no offset and no bound. -/
def c8Opts : TaskOptions := { runEvery := 1000, runFor := 0, offset := 0 }

/-! ## Command and inhibitors (the Command class bundled in ModuleTask.ts) -/

/-- Outcome of evaluating one inhibitor on a fixed context: either the
inhibitor resolved and truthy is the truthiness of its value, or the
inhibitor threw or rejected. -/
inductive InhRes where
  | ok (truthy : Bool)
  | threw
deriving DecidableEq

/-- Embeds Command.callInhibitors over the list of per-inhibitor outcomes for
a fixed context. In the loop of the source, isInhibited becomes the negated
truthiness of a resolved value, a caught error sets isInhibited to false, and
the loop returns true as soon as isInhibited is true, so evaluation stops at
the first falsy resolution while a throwing inhibitor merely lets the loop
continue. -/
def callInhibitors : List InhRes → Bool
  | [] => false
  | InhRes.ok truthy :: rest =>
      if truthy = false then true else callInhibitors rest
  | InhRes.threw :: rest => callInhibitors rest

/-- Counts how many inhibitors the loop in callInhibitors evaluates before it
returns: the loop consumes the list in order and stops right after the first
falsy resolution. -/
def inhibitorsEvaluated : List InhRes → Nat
  | [] => 0
  | InhRes.ok truthy :: rest =>
      if truthy = false then 1 else 1 + inhibitorsEvaluated rest
  | InhRes.threw :: rest => 1 + inhibitorsEvaluated rest

/-- Per-command mutable state carried by a Command object: its name and the
disabled flag of its options. -/
structure CommandState where
  name : String
  disabled : Bool
deriving DecidableEq

/-- Embeds Command.execute for a fixed context whose inhibitor outcomes are
given: the handler is started (without being awaited) exactly when
callInhibitors returns false, and the result records whether the handler was
started. The body of execute in the source reads callInhibitors and the
handler only, so no field of the command state is consulted. -/
def executeRuns (_c : CommandState) (outcomes : List InhRes) : Bool :=
  if callInhibitors outcomes = true then false else true

/-- Embeds Command.disable: sets the disabled flag of the options. -/
def disable (c : CommandState) : CommandState := { c with disabled := true }

/-- Embeds Command.enable: clears the disabled flag of the options. -/
def enable (c : CommandState) : CommandState := { c with disabled := false }

/-! ## CommandRegistry (the registry class bundled in Context.ts) -/

/-- Lookup in the alias table, embedding aliases.get. Commands are named by
numeric identity so that two distinct Command instances are distinguishable. -/
def lookupAlias (aliases : List (String × Nat)) (key : String) : Option Nat :=
  (aliases.find? (fun p => p.1 == key)).map (fun p => p.2)

/-- Overwriting insertion into the alias table, embedding aliases.set of the
JavaScript Map: an existing key keeps its position and gets the new value,
a new key is appended. -/
def setAlias (key : String) (cmd : Nat) :
    List (String × Nat) → List (String × Nat)
  | [] => [(key, cmd)]
  | (k, v) :: rest =>
      if k == key then (key, cmd) :: rest else (k, v) :: setAlias key cmd rest

/-- Observable registry state: the command table keyed by the monotonic
integer id, the alias table, the next id, and the duplicate-alias warnings
emitted so far (each warning recorded by the offending alias). -/
structure RegistryState where
  commands : List (Nat × Nat)
  aliases : List (String × Nat)
  nextCommandId : Nat
  warnings : List String
deriving DecidableEq

/-- Registry state of a fresh client. -/
def initRegistry : RegistryState :=
  { commands := [], aliases := [], nextCommandId := 0, warnings := [] }

/-- Declared data of one command: its identity, primary name and declared
alias list in order. -/
structure CommandDecl where
  cid : Nat
  name : String
  declaredAliases : List String
deriving DecidableEq

/-- Embeds CommandRegistry.registerCommandAlias: when the alias is already
mapped a warning is logged, and the mapping is overwritten either way; the
function is total, so no error is ever raised. -/
def registerCommandAlias (cmd : Nat) (aliasName : String) (s : RegistryState) :
    RegistryState :=
  let s1 : RegistryState :=
    if (lookupAlias s.aliases aliasName).isSome = true then
      { s with warnings := s.warnings ++ [aliasName] }
    else s
  { s1 with aliases := setAlias aliasName cmd s1.aliases }

/-- Embeds the per-command body of CommandRegistry.registerCommand: the
command is stored under the next integer id, its primary name is written
directly into the alias table (without a duplicate warning), each declared
alias is then registered through registerCommandAlias in declaration order,
and the id counter increments. -/
def registerCommand (c : CommandDecl) (s : RegistryState) : RegistryState :=
  let s1 : RegistryState :=
    { s with commands := s.commands ++ [(s.nextCommandId, c.cid)],
             aliases := setAlias c.name c.cid s.aliases }
  let s2 : RegistryState :=
    c.declaredAliases.foldl
      (fun st a => registerCommandAlias c.cid a st) s1
  { s2 with nextCommandId := s2.nextCommandId + 1 }

/-- Whitespace test used by the trim of the message tokenizer. -/
def isSpaceChar (c : Char) : Bool :=
  c = ' ' ∨ c = '\t' ∨ c = '\n' ∨ c = '\r'

/-- Removes whitespace from both ends of a character list, embedding the
trim call of the source on string data. -/
def trimChars (l : List Char) : List Char :=
  ((l.dropWhile isSpaceChar).reverse.dropWhile isSpaceChar).reverse

/-- Splits a character list at every space character, embedding the split
call of the source with a single-space separator: adjacent separators and
boundary separators produce empty tokens, and an empty input yields one empty
token, matching the JavaScript behavior. -/
def splitOnSpace : List Char → List (List Char)
  | [] => [[]]
  | c :: rest =>
      if c = ' ' then [] :: splitOnSpace rest
      else
        match splitOnSpace rest with
        | [] => [[c]]
        | t :: ts => (c :: t) :: ts

/-- Tests whether the first list starts with the second, character by
character; used only to state that the source never performs this test. -/
def startsWithChars : List Char → List Char → Bool
  | _, [] => true
  | [], _ :: _ => false
  | c :: cs, p :: ps => if c = p then startsWithChars cs ps else false

/-- First whitespace-delimited token of the message content after the first
n characters have been removed by slice: the remainder is trimmed and split
on single spaces and the first piece is taken, exactly as in the source. -/
def firstTokenAfterDrop (n : Nat) (content : String) : String :=
  String.mk ((splitOnSpace (trimChars (content.data.drop n))).headD [])

/-- Embeds CommandRegistry.findCommandFromMessage: with no resolvable guild id
the result is none; otherwise the configured guild prefix is fetched (passed
here as pfx), the first prefix-length characters of the message content are
removed by slice, the remainder is trimmed and split on single spaces, and
the first token is looked up in the alias table. Nothing ever compares the
removed characters with the prefix itself. -/
def findCommandFromMessage (guildId : Option String) (pfx : String)
    (content : String) (aliases : List (String × Nat)) : Option Nat :=
  match guildId with
  | none => none
  | some _ =>
      lookupAlias aliases (firstTokenAfterDrop pfx.data.length content)

/-- Pointwise update of the command environment at one command identity,
modelling a mutation of that Command object. -/
def updateCmd (cid : Nat) (f : CommandState → CommandState)
    (cmds : Nat → CommandState) : Nat → CommandState :=
  fun n => if n = cid then f (cmds n) else cmds n

/-- Embeds the dispatch path of CommandRegistry, the _handleMessage method:
the command is resolved through findCommandFromMessage and, when found,
executed through Command.execute; the result records whether a command was
resolved and, if so, whether its handler was started. No step consults the
disabled flag. -/
def dispatchMessage (guildId : Option String) (pfx content : String)
    (aliases : List (String × Nat)) (cmds : Nat → CommandState)
    (outcomes : List InhRes) : Option Bool :=
  match findCommandFromMessage guildId pfx content aliases with
  | none => none
  | some cid => some (executeRuns (cmds cid) outcomes)

/-- Declared data of the command named uwu with aliases u and uwu. -/
def uwuDecl : CommandDecl :=
  { cid := 0, name := "uwu", declaredAliases := ["u", "uwu"] }

/-- Registry after registering the uwu command into a fresh registry. -/
def c7Reg1 : RegistryState := registerCommand uwuDecl initRegistry

/-- Registry after re-registering the alias u for a different command. -/
def c7Reg2 : RegistryState := registerCommandAlias 1 "u" c7Reg1

/-! ## PagedEmbed (the evolved revision of structures/PagedEmbed) -/

/-- Externally observable effects of PagedEmbed methods, in program order. -/
inductive PEEffect where
  | consoleLogIndex (i : Nat)
  | removeReactions
  | editContent (text : String)
  | deleteMessage
  | editEmbed (pageIndex : Nat)
  | logRefreshError
  | addReaction (name : String)
deriving DecidableEq

/-- Observable state of one PagedEmbed: the page list (pages named by numeric
identity), the current page index, whether the message field holds a handle,
the destroyed flag, and whether the client event listeners are registered. -/
structure PagedEmbedState where
  pages : List Nat
  currentPageIndex : Nat
  messageSet : Bool
  destroyed : Bool
  listenersRegistered : Bool
deriving DecidableEq

/-- Embeds PagedEmbed.refresh: a no-op when the message field is empty or the
embed is destroyed; otherwise the message is edited to the page at the
current index, and an edit failure (such as an index past the end of the page
list) is caught and logged. The index itself is never changed here, and the
model assumes a nonempty page list wherever an index is taken modulo the page
count. -/
def refresh (s : PagedEmbedState) : PagedEmbedState × List PEEffect :=
  if s.messageSet = false ∨ s.destroyed = true then (s, [])
  else if s.currentPageIndex < s.pages.length then
    (s, [PEEffect.editEmbed s.currentPageIndex])
  else (s, [PEEffect.logRefreshError])

/-- Embeds PagedEmbed.nextPage: the old index is logged to the console, the
index advances by one modulo the page count unconditionally (the destroyed
flag is not consulted), and refresh is triggered without being awaited. -/
def nextPage (s : PagedEmbedState) : PagedEmbedState × List PEEffect :=
  let s1 : PagedEmbedState :=
    { s with currentPageIndex := (s.currentPageIndex + 1) % s.pages.length }
  let r := refresh s1
  (r.1, PEEffect.consoleLogIndex s.currentPageIndex :: r.2)

/-- Embeds PagedEmbed.previousPage: the index retreats by one, wrapping from
zero to the last page, unconditionally (the destroyed flag is not consulted),
and refresh is triggered. -/
def previousPage (s : PagedEmbedState) : PagedEmbedState × List PEEffect :=
  let s1 : PagedEmbedState :=
    { s with currentPageIndex :=
        if s.currentPageIndex = 0 then s.pages.length - 1
        else s.currentPageIndex - 1 }
  refresh s1

/-- Embeds PagedEmbed.changePage: sets the index without a refresh. -/
def changePage (n : Nat) (s : PagedEmbedState) :
    PagedEmbedState × List PEEffect :=
  ({ s with currentPageIndex := n }, [])

/-- Embeds PagedEmbed.addDefaultControls: a no-op when the message field is
empty or the embed is destroyed; otherwise the three control reactions are
added and wired to the navigation handlers (the wiring is internal to the
emitter and has no further observable effect here). -/
def addDefaultControls (s : PagedEmbedState) :
    PagedEmbedState × List PEEffect :=
  if s.messageSet = false ∨ s.destroyed = true then (s, [])
  else
    (s, [PEEffect.addReaction "previous", PEEffect.addReaction "next",
         PEEffect.addReaction "close"])

/-- Embeds PagedEmbed.destroy: when the message field holds a handle, a given
reason clears the reactions and edits the message to show the reason text,
while no reason deletes the message outright; in both cases the client event
listeners are unregistered and the destroyed flag is set. The message field
itself is never cleared by the source, so the handle survives destroy. -/
def destroy (reason : Option String) (s : PagedEmbedState) :
    PagedEmbedState × List PEEffect :=
  let eff : List PEEffect :=
    if s.messageSet = true then
      match reason with
      | some text => [PEEffect.removeReactions, PEEffect.editContent text]
      | none => [PEEffect.deleteMessage]
    else []
  ({ s with listenersRegistered := false, destroyed := true }, eff)

/-- An initialized three-page embed showing its first page. -/
def pe3 : PagedEmbedState :=
  { pages := [0, 1, 2], currentPageIndex := 0, messageSet := true,
    destroyed := false, listenersRegistered := true }

/-- The three-page embed after a plain destroy. -/
def pe3Destroyed : PagedEmbedState := (destroy none pe3).1

/-! ## Helper lemmas -/

/-- Adding a module to a client that is not ready stores the module and runs
no lifecycle hook. -/
theorem addModule_keeps_trace (m : Nat) (s : ClientState)
    (h : s.status ≠ ConnStatus.ready) :
    addModule m s = { s with modules := s.modules ++ [m] } := by
  simp [addModule, h]

/-- Adding a list of modules to a client that is not ready stores the modules
in order and runs no lifecycle hook. -/
theorem addModules_keeps_trace (ms : List Nat) : ∀ s : ClientState,
    s.status ≠ ConnStatus.ready →
    addModules ms s = { s with modules := s.modules ++ ms } := by
  induction ms with
  | nil => intro s _; simp [addModules]
  | cons m tl ih =>
    intro s h
    simp only [addModules, List.foldl_cons]
    rw [addModule_keeps_trace m s h]
    have h2 := ih { s with modules := s.modules ++ [m] } h
    simp only [addModules] at h2
    rw [h2]
    simp

/-- One interval tick of the misbound trigger changes neither the handler
invocation count nor the counters nor the interval. -/
theorem tickV1_fields (opts : TaskOptions) (hT : Nat → Bool) (s : TaskState) :
    (tickV1 opts hT s).handlerCalls = s.handlerCalls
    ∧ (tickV1 opts hT s).intervalLive = s.intervalLive
    ∧ (tickV1 opts hT s).runCount = s.runCount := ⟨rfl, rfl, rfl⟩

/-- Iterated interval ticks of the misbound trigger never run the handler and
never clear the interval. -/
theorem ticksV1_fields (opts : TaskOptions) (hT : Nat → Bool) :
    ∀ (n : Nat) (s : TaskState),
      (ticksV1 opts hT n s).handlerCalls = s.handlerCalls
      ∧ (ticksV1 opts hT n s).intervalLive = s.intervalLive := by
  intro n
  induction n with
  | zero => intro s; exact ⟨rfl, rfl⟩
  | succ k ih =>
    intro s
    have h := ih (tickV1 opts hT s)
    have ht := tickV1_fields opts hT s
    simp only [ticksV1]
    exact ⟨h.1.trans ht.1, h.2.trans ht.2.1⟩

/-- With no falsy resolution in the outcome list the inhibitor chain reports
no inhibition. -/
theorem callInhibitors_eq_false (l : List InhRes)
    (h : InhRes.ok false ∉ l) : callInhibitors l = false := by
  induction l with
  | nil => rfl
  | cons hd tl ih =>
    cases hd with
    | threw =>
      simp only [callInhibitors]
      exact ih (fun hm => h (List.mem_cons_of_mem _ hm))
    | ok b =>
      cases b with
      | false => exact absurd (List.mem_cons_self _ _) h
      | true =>
        simp only [callInhibitors, if_neg]
        simp only [Bool.true_eq_false, if_false]
        exact ih (fun hm => h (List.mem_cons_of_mem _ hm))

/-- With no falsy resolution the loop evaluates every inhibitor. -/
theorem inhibitorsEvaluated_eq_length (l : List InhRes)
    (h : InhRes.ok false ∉ l) : inhibitorsEvaluated l = l.length := by
  induction l with
  | nil => rfl
  | cons hd tl ih =>
    cases hd with
    | threw =>
      simp only [inhibitorsEvaluated, List.length_cons]
      rw [ih (fun hm => h (List.mem_cons_of_mem _ hm))]
      omega
    | ok b =>
      cases b with
      | false => exact absurd (List.mem_cons_self _ _) h
      | true =>
        simp only [inhibitorsEvaluated, Bool.true_eq_false, if_false,
          List.length_cons]
        rw [ih (fun hm => h (List.mem_cons_of_mem _ hm))]
        omega

/-- When the first falsy resolution sits at position i, the chain reports
inhibition and the loop evaluates exactly the first i plus one inhibitors. -/
theorem callInhibitors_first_falsy (l : List InhRes) : ∀ i : Nat,
    i < l.length →
    l.getD i InhRes.threw = InhRes.ok false →
    InhRes.ok false ∉ l.take i →
    callInhibitors l = true ∧ inhibitorsEvaluated l = i + 1 := by
  induction l with
  | nil => intro i hi; simp at hi
  | cons hd tl ih =>
    intro i hi hget hpre
    cases i with
    | zero =>
      have hhd : hd = InhRes.ok false := by simpa [List.getD] using hget
      subst hhd
      exact ⟨rfl, rfl⟩
    | succ j =>
      have hd_ne : hd ≠ InhRes.ok false := by
        intro he
        exact hpre (by simp [he, List.take_succ_cons])
      have hpre2 : InhRes.ok false ∉ tl.take j := by
        intro hm
        exact hpre (by simp [List.take_succ_cons, hm])
      have hget2 : tl.getD j InhRes.threw = InhRes.ok false := by
        simpa [List.getD] using hget
      have hj : j < tl.length := by
        simpa [Nat.succ_lt_succ_iff] using hi
      obtain ⟨h1, h2⟩ := ih j hj hget2 hpre2
      cases hd with
      | threw =>
        refine ⟨?_, ?_⟩
        · simpa [callInhibitors] using h1
        · simp only [inhibitorsEvaluated]
          omega
      | ok b =>
        cases b with
        | false => exact absurd rfl hd_ne
        | true =>
          refine ⟨?_, ?_⟩
          · simpa [callInhibitors] using h1
          · simp only [inhibitorsEvaluated, Bool.true_eq_false, if_false]
            omega

/-! ## Claim theorems -/

/-- C1 counterexample: with two modules added before connecting, the trace of
connect runs the willInit hook of module 1 strictly before the didInit hook
of module 0, so the claim that the didInit of module k completes before the
willInit of module k plus one begins is false at this input. -/
theorem c1_counterexample :
    (connect (addModules [0, 1] initClient)).trace
        = [LcEvent.willInit 0, LcEvent.willInit 1,
           LcEvent.didInit 0, LcEvent.didInit 1]
    ∧ ((connect (addModules [0, 1] initClient)).trace).indexOf
          (LcEvent.willInit 1)
        < ((connect (addModules [0, 1] initClient)).trace).indexOf
          (LcEvent.didInit 0) := by
  decide

/-- C1 amended: for every sequence of modules added before connecting, the
lifecycle hooks run in two strictly sequential phases, willInit of every
module in registration order followed by didInit of every module in
registration order; hooks never overlap, but every willInit precedes every
didInit, so the didInit of module k runs after, not before, the willInit of
module k plus one. -/
theorem c1_amended (ms : List Nat) :
    (connect (addModules ms initClient)).trace
      = ms.map LcEvent.willInit ++ ms.map LcEvent.didInit := by
  rw [addModules_keeps_trace ms initClient (by decide)]
  simp [connect, preInitializeModules, postInitializeModules, initClient]

/-- C2 counterexample: after start arms an interval, a first stop returns
true and a second stop with no intervening start also returns true, because
the timer field is never cleared; the claim that the second stop returns
false is therefore false at this input. -/
theorem c2_counterexample :
    (stopV1 c8Opts (startV1 c8Opts noThrow initTask).1).2 = true
    ∧ (stopV1 c8Opts
        ((stopV1 c8Opts (startV1 c8Opts noThrow initTask).1).1)).2 = true := by
  decide

/-- C2 amended: stop returns false when runEvery is zero (or when no timer
was ever armed); once a timer has been armed, stop returns true, cancels the
underlying interval, and keeps returning true on every further call because
the timer field is never cleared. -/
theorem c2_amended (opts : TaskOptions) (s : TaskState) :
    (opts.runEvery = 0 → (stopV1 opts s).2 = false)
    ∧ (opts.runEvery ≠ 0 → s.timerField = true →
        (stopV1 opts s).2 = true
        ∧ (stopV1 opts s).1.intervalLive = false
        ∧ (stopV1 opts s).1.timerField = true
        ∧ (stopV1 opts ((stopV1 opts s).1)).2 = true) := by
  constructor
  · intro h
    simp [stopV1, h]
  · intro h1 h2
    simp [stopV1, h1, h2]

/-- C2 witness: the amended stop behavior evaluated at a task with runEvery
zero and at a task holding an armed timer. -/
theorem c2_amended_witness :
    (stopV1 { runEvery := 0, runFor := 0, offset := 0 } initTask).2 = false
    ∧ (stopV1 c8Opts { initTask with timerField := true }).2 = true := by
  constructor
  · exact (c2_amended { runEvery := 0, runFor := 0, offset := 0 } initTask).1
      rfl
  · exact ((c2_amended c8Opts { initTask with timerField := true }).2
      (by decide) rfl).1

/-- C3 counterexample: on a destroyed three-page embed, a second plain
destroy deletes the message again, and nextPage moves currentPageIndex from
zero to one; the claim that destroy is idempotent and that every method after
destroy leaves all observable state unchanged is therefore false here. -/
theorem c3_counterexample :
    pe3Destroyed.currentPageIndex = 0
    ∧ (destroy none pe3Destroyed).2 = [PEEffect.deleteMessage]
    ∧ (nextPage pe3Destroyed).1.currentPageIndex = 1 := by
  decide

/-- C3 amended: destroy is terminal (the destroyed flag stays set and refresh
and addDefaultControls become no-ops with no effects), but destroy is not
idempotent: the message handle is never cleared, so a further plain destroy
deletes the message again; and nextPage and previousPage after destroy still
move currentPageIndex (without editing the message and without throwing). -/
theorem c3_amended (s : PagedEmbedState) (h : s.destroyed = true) :
    refresh s = (s, [])
    ∧ addDefaultControls s = (s, [])
    ∧ (destroy none s).1.destroyed = true
    ∧ (s.messageSet = true → (destroy none s).2 = [PEEffect.deleteMessage])
    ∧ (nextPage s).1.currentPageIndex
        = (s.currentPageIndex + 1) % s.pages.length
    ∧ (nextPage s).2 = [PEEffect.consoleLogIndex s.currentPageIndex]
    ∧ (previousPage s).1.currentPageIndex
        = (if s.currentPageIndex = 0 then s.pages.length - 1
           else s.currentPageIndex - 1)
    ∧ (previousPage s).2 = [] := by
  refine ⟨?_, ?_, ?_, ?_, ?_, ?_, ?_, ?_⟩
  · simp [refresh, h]
  · simp [addDefaultControls, h]
  · simp [destroy]
  · intro hm; simp [destroy, hm]
  · simp [nextPage, refresh, h]
  · simp [nextPage, refresh, h]
  · simp [previousPage, refresh, h]
  · simp [previousPage, refresh, h]

/-- C3 witness: the amended destroy behavior evaluated on the destroyed
three-page embed. -/
theorem c3_amended_witness :
    refresh pe3Destroyed = (pe3Destroyed, [])
    ∧ addDefaultControls pe3Destroyed = (pe3Destroyed, []) := by
  have h := c3_amended pe3Destroyed (by decide)
  exact ⟨h.1, h.2.1⟩

/-- C4: inhibitors are evaluated strictly in registration order; the chain
short-circuits at the first falsy resolution, having evaluated exactly the
inhibitors up to and including it, and the handler is then not started; a
throwing inhibitor counts as not inhibiting and the chain continues, so when
no inhibitor resolves falsy the whole list is evaluated and the handler is
started. -/
theorem c4_inhibitor_chain (c : CommandState) (l : List InhRes) :
    (∀ i : Nat, i < l.length →
        l.getD i InhRes.threw = InhRes.ok false →
        InhRes.ok false ∉ l.take i →
        callInhibitors l = true
          ∧ inhibitorsEvaluated l = i + 1
          ∧ executeRuns c l = false)
    ∧ (InhRes.ok false ∉ l →
        callInhibitors l = false
          ∧ inhibitorsEvaluated l = l.length
          ∧ executeRuns c l = true) := by
  constructor
  · intro i hi hget hpre
    obtain ⟨h1, h2⟩ := callInhibitors_first_falsy l i hi hget hpre
    exact ⟨h1, h2, by simp [executeRuns, h1]⟩
  · intro h
    have h1 := callInhibitors_eq_false l h
    exact ⟨h1, inhibitorsEvaluated_eq_length l h,
      by simp [executeRuns, h1]⟩

/-- C4 witness: the chain evaluated on a list whose first falsy resolution
follows a throwing inhibitor and a truthy one, and on a list with no falsy
resolution at all. -/
theorem c4_inhibitor_chain_witness :
    (callInhibitors
        [InhRes.threw, InhRes.ok true, InhRes.ok false, InhRes.ok true] = true
      ∧ inhibitorsEvaluated
        [InhRes.threw, InhRes.ok true, InhRes.ok false, InhRes.ok true] = 3
      ∧ executeRuns { name := "uwu", disabled := false }
        [InhRes.threw, InhRes.ok true, InhRes.ok false, InhRes.ok true]
          = false)
    ∧ (callInhibitors [InhRes.threw, InhRes.ok true] = false
      ∧ inhibitorsEvaluated [InhRes.threw, InhRes.ok true] = 2
      ∧ executeRuns { name := "uwu", disabled := false }
        [InhRes.threw, InhRes.ok true] = true) := by
  constructor
  · exact (c4_inhibitor_chain { name := "uwu", disabled := false }
      [InhRes.threw, InhRes.ok true, InhRes.ok false, InhRes.ok true]).1
      2 (by decide) (by decide) (by decide)
  · exact (c4_inhibitor_chain { name := "uwu", disabled := false }
      [InhRes.threw, InhRes.ok true]).2 (by decide)

/-- C5: findCommandFromMessage never verifies that the message content begins
with the configured prefix: its result depends on the prefix only through its
length, and for a message that does not start with the prefix the first
prefix-length characters are removed all the same and the first token of the
remainder is looked up in the alias table. -/
theorem c5_no_prefix_verification (gid content pfx : String)
    (al : List (String × Nat)) :
    (∀ pfx2 : String, pfx2.data.length = pfx.data.length →
      findCommandFromMessage (some gid) pfx2 content al
        = findCommandFromMessage (some gid) pfx content al)
    ∧ (startsWithChars content.data pfx.data = false →
      findCommandFromMessage (some gid) pfx content al
        = lookupAlias al (firstTokenAfterDrop pfx.data.length content)) := by
  constructor
  · intro p2 h
    simp [findCommandFromMessage, h]
  · intro _
    rfl

/-- C5 witness: a message that does not start with the configured prefix is
still resolved to the command registered under the first token of the
remainder, and a different prefix of the same length resolves identically. -/
theorem c5_no_prefix_verification_witness :
    findCommandFromMessage (some "g") "ab" "??ping" [("ping", 7)]
        = findCommandFromMessage (some "g") "!!" "??ping" [("ping", 7)]
    ∧ findCommandFromMessage (some "g") "!!" "??ping" [("ping", 7)]
        = some 7 := by
  constructor
  · exact (c5_no_prefix_verification "g" "??ping" "!!" [("ping", 7)]).1
      "ab" (by decide)
  · have h := (c5_no_prefix_verification "g" "??ping" "!!" [("ping", 7)]).2
      (by decide)
    rw [h]
    decide

/-- C6: evaluation of the source at the configuration offset 1000, runEvery
1000, runFor 3 named by the claim. Because start and the interval callback
invoke trigger with the module as receiver, the first trigger throws a
TypeError that propagates out of start, the handler never runs, the loop
counter never advances, and no number of further interval ticks ever runs the
handler or cancels the interval, contradicting the claimed three triggers
followed by auto-stop with the counter at three. -/
theorem c6_trigger_misbinding :
    ((startV1 c6Opts noThrow initTask).2 = some JsErr.typeError
      ∧ (startV1 c6Opts noThrow initTask).1.handlerCalls = 0
      ∧ (startV1 c6Opts noThrow initTask).1.runCount = 0
      ∧ (startV1 c6Opts noThrow initTask).1.intervalLive = true)
    ∧ ∀ n : Nat,
        (ticksV1 c6Opts noThrow n
            (startV1 c6Opts noThrow initTask).1).handlerCalls = 0
        ∧ (ticksV1 c6Opts noThrow n
            (startV1 c6Opts noThrow initTask).1).intervalLive = true := by
  constructor
  · exact ⟨by decide, by decide, by decide, by decide⟩
  · intro n
    have h := ticksV1_fields c6Opts noThrow n
      (startV1 c6Opts noThrow initTask).1
    exact ⟨h.1.trans (by decide), h.2.trans (by decide)⟩

/-- C7: registering the command uwu with aliases u and uwu makes
findCommandFromMessage resolve both prefixed forms to that same command, and
re-registering the alias u for a different command overwrites the mapping
while logging one more duplicate-alias warning; the registration functions
are total, so no error is raised. -/
theorem c7_alias_registration :
    findCommandFromMessage (some "g") "!" "!u" c7Reg1.aliases = some 0
    ∧ findCommandFromMessage (some "g") "!" "!uwu" c7Reg1.aliases = some 0
    ∧ lookupAlias c7Reg2.aliases "u" = some 1
    ∧ lookupAlias c7Reg2.aliases "uwu" = some 0
    ∧ c7Reg2.warnings = c7Reg1.warnings ++ ["u"] := by
  decide

/-- C8: evaluation of the source at a task whose handler always throws. When
the task is started, the rejection that reaches the caller of start is a
TypeError from the misbound trigger, raised before the handler ever runs, and
nothing is reported through the module logger; when trigger is invoked
directly on the task, the throwing handler is caught (nothing propagates),
the loop counter advances by one and the schedule is untouched, but the
report goes to the global console, not to the module logger, contradicting
the claim. -/
theorem c8_handler_failure_evaluation :
    ((startV1 c8Opts alwaysThrow initTask).2 = some JsErr.typeError
      ∧ (startV1 c8Opts alwaysThrow initTask).1.handlerCalls = 0
      ∧ (startV1 c8Opts alwaysThrow initTask).1.moduleLogs = 0)
    ∧ ((triggerV1 Receiver.task c8Opts alwaysThrow initTask).2 = none
      ∧ (triggerV1 Receiver.task c8Opts alwaysThrow initTask).1.runCount = 1
      ∧ (triggerV1 Receiver.task c8Opts alwaysThrow initTask).1.consoleLogs
          = 1
      ∧ (triggerV1 Receiver.task c8Opts alwaysThrow initTask).1.moduleLogs
          = 0
      ∧ (triggerV1 Receiver.task c8Opts alwaysThrow initTask).1.intervalLive
          = initTask.intervalLive) := by
  decide

/-- C9: disable and enable touch only the disabled flag of the command, the
alias table is untouched by them, and neither execute nor the message
dispatch path reads the flag, so a disabled command resolved by alias still
runs its inhibitor chain and handler exactly as before. -/
theorem c9_disabled_flag_advisory (c : CommandState) (cid : Nat)
    (cmds : Nat → CommandState) (gid : Option String) (pfx content : String)
    (al : List (String × Nat)) (l : List InhRes) :
    (disable c).disabled = true
    ∧ (disable c).name = c.name
    ∧ (enable c).disabled = false
    ∧ (enable c).name = c.name
    ∧ executeRuns (disable c) l = executeRuns c l
    ∧ executeRuns (enable c) l = executeRuns c l
    ∧ dispatchMessage gid pfx content al (updateCmd cid disable cmds) l
        = dispatchMessage gid pfx content al cmds l
    ∧ dispatchMessage gid pfx content al (updateCmd cid enable cmds) l
        = dispatchMessage gid pfx content al cmds l := by
  refine ⟨rfl, rfl, rfl, rfl, rfl, rfl, ?_, ?_⟩
  · cases hf : findCommandFromMessage gid pfx content al with
    | none => simp [dispatchMessage, hf]
    | some k => simp [dispatchMessage, hf, executeRuns]
  · cases hf : findCommandFromMessage gid pfx content al with
    | none => simp [dispatchMessage, hf]
    | some k => simp [dispatchMessage, hf, executeRuns]

/-- C10: on a three-page embed showing page zero, three nextPage calls wrap
forward through indices one and two back to zero, and one previousPage call
from index zero wraps backward to index two. -/
theorem c10_page_wrapping :
    (nextPage pe3).1.currentPageIndex = 1
    ∧ (nextPage (nextPage pe3).1).1.currentPageIndex = 2
    ∧ (nextPage (nextPage (nextPage pe3).1).1).1.currentPageIndex = 0
    ∧ (previousPage pe3).1.currentPageIndex = 2 := by
  decide

end Snepsek
